import Mathlib

/-!
Verification development for the CAN_AQHI repository: a shallow embedding of
the AQHI data pipeline (`aqhi_xml_to_map.py`, `scripts/aqhi_geomet_all.py`,
`scripts/aqhi_geomet_to_geojson.py`) together with theorems about its
normalization core: the color mapper, the deduplicating merge, the URL filter,
the bounding-box filter, the XML record extractor and the GeoJSON writer.

Python floats are embedded as exact rationals extended with `nan`, `inf`
and `-inf`; missing values (`None` / missing dict keys / pandas `NaN`)
are embedded with `Option`.
-/

namespace CanAqhi

/-- A Python float: an exact rational value, or one of the special values. -/
inductive PyFloat where
  | val (q : ℚ)
  | nan
  | inf
  | ninf
deriving DecidableEq

/-- Comparison `a <= b` on Python floats: any comparison with `nan` is false. -/
def pfLe (a b : PyFloat) : Bool :=
  match a, b with
  | .nan, _ => false
  | _, .nan => false
  | .ninf, _ => true
  | _, .ninf => false
  | _, .inf => true
  | .inf, _ => false
  | .val x, .val y => decide (x ≤ y)

/-- Lexicographic `<=` on character lists by code point, the order Python
uses to compare and sort strings. -/
def lexLe : List Char → List Char → Bool
  | [], _ => true
  | _ :: _, [] => false
  | a :: as, b :: bs =>
    if a.toNat < b.toNat then true
    else if b.toNat < a.toNat then false
    else lexLe as bs

/-- Python `s <= t` on strings. -/
def strLe (s t : String) : Bool := lexLe s.data t.data

/-- Python `s.lower()` (ASCII case folding). -/
def lowerStr (s : String) : String := ⟨s.data.map Char.toLower⟩

/-- Whitespace characters stripped by Python `float()` (ASCII subset). -/
def isPyWs (c : Char) : Bool :=
  c = ' ' || c = '\t' || c = '\n' || c = '\r' || c = '\x0b' || c = '\x0c'

/-- Consume a Python digit run: digits with single underscores allowed
between digits (`digit (["_"] digit)*`). Fuel-based structural recursion;
one unit of fuel is always enough for one consumed character. -/
def takeDigitsF : ℕ → List Char → List ℕ × List Char
  | 0, l => ([], l)
  | _ + 1, [] => ([], [])
  | fuel + 1, c :: '_' :: c2 :: cs2 =>
    if c.isDigit then
      if c2.isDigit then
        let p := takeDigitsF fuel (c2 :: cs2)
        ((c.toNat - 48) :: p.1, p.2)
      else ([c.toNat - 48], '_' :: c2 :: cs2)
    else ([], c :: '_' :: c2 :: cs2)
  | fuel + 1, c :: cs =>
    if c.isDigit then
      let p := takeDigitsF fuel cs
      ((c.toNat - 48) :: p.1, p.2)
    else ([], c :: cs)

/-- The digit-run consumer: returns digit values and the remaining input. -/
def takeDigits (l : List Char) : List ℕ × List Char := takeDigitsF l.length l

/-- Digit list to natural number, most significant first. -/
def natOfDigits (ds : List ℕ) : ℕ := ds.foldl (fun acc d => 10 * acc + d) 0

/-- Parse an exponent: optional sign then a nonempty digit run. -/
def parseExpDigits (l : List Char) : Option (Int × List Char) :=
  match l with
  | '+' :: t =>
    let p := takeDigits t
    match p.1 with
    | [] => Option.none
    | _ => some ((natOfDigits p.1 : Int), p.2)
  | '-' :: t =>
    let p := takeDigits t
    match p.1 with
    | [] => Option.none
    | _ => some (-(natOfDigits p.1 : Int), p.2)
  | t =>
    let p := takeDigits t
    match p.1 with
    | [] => Option.none
    | _ => some ((natOfDigits p.1 : Int), p.2)

/-- The exact rational `m / 10^k * 10^e` built from integer arithmetic. -/
def decimalValue (m k : ℕ) (e : Int) : ℚ :=
  if 0 ≤ e - (k : Int) then mkRat ((m : Int) * (10 : Int) ^ (e - (k : Int)).toNat) 1
  else mkRat (m : Int) ((10 : ℕ) ^ ((k : Int) - e).toNat)

/-- Parse the unsigned numeric body accepted by Python `float()`:
`digitpart ["." [digitpart]] | "." digitpart`, optional exponent,
whole input must be consumed. The value is kept exact as a rational. -/
def parseNumeric (l : List Char) : Option ℚ :=
  let ip := takeDigits l
  let fr : List ℕ × List Char :=
    match ip.2 with
    | '.' :: t => takeDigits t
    | _ => ([], ip.2)
  if ip.1 = [] ∧ fr.1 = [] then Option.none
  else
    let m := natOfDigits (ip.1 ++ fr.1)
    let k := fr.1.length
    match fr.2 with
    | 'e' :: t =>
      match parseExpDigits t with
      | some (e, []) => some (decimalValue m k e)
      | _ => Option.none
    | 'E' :: t =>
      match parseExpDigits t with
      | some (e, []) => some (decimalValue m k e)
      | _ => Option.none
    | [] => some (decimalValue m k 0)
    | _ => Option.none

/-- Strip leading and trailing whitespace, as Python `float()` does. -/
def pyWsStrip (l : List Char) : List Char :=
  ((l.dropWhile isPyWs).reverse.dropWhile isPyWs).reverse

/-- The conversion attempted by Python `float(s)` on a string: optional sign,
then `inf`/`infinity`/`nan` (case-insensitive) or a numeric body.
`Option.none` models the `ValueError` raised on a non-numeric string. -/
def parsePyFloat (s : String) : Option PyFloat :=
  let l0 := pyWsStrip s.data
  let sgnNeg : Bool := match l0 with | '-' :: _ => true | _ => false
  let l1 : List Char := match l0 with | '-' :: t => t | '+' :: t => t | t => t
  let low := l1.map Char.toLower
  if low = ("inf").data ∨ low = ("infinity").data then
    some (if sgnNeg then PyFloat.ninf else PyFloat.inf)
  else if low = ("nan").data then some PyFloat.nan
  else
    match parseNumeric l1 with
    | some q => some (PyFloat.val (if sgnNeg then -q else q))
    | Option.none => Option.none

/-- A Python object as fed to `aqhi_to_color`: `None`, a float, or a string. -/
inductive PyObj where
  | pnone
  | num (f : PyFloat)
  | str (s : String)
deriving DecidableEq

/-- `pd.isna`: true on `None` and on float `nan`, false on other
floats and on strings. -/
def pdIsna : PyObj → Bool
  | .pnone => true
  | .num PyFloat.nan => true
  | _ => false

/-- The `float(val)` coercion inside `aqhi_to_color`: floats pass through,
strings go through the float parser, `None` raises (models as `Option.none`). -/
def pyFloatOf : PyObj → Option PyFloat
  | .pnone => Option.none
  | .num f => some f
  | .str s => parsePyFloat s

/-- The 11-color AQHI palette from the source (`AQHI_COLORS`). -/
def AQHI_COLORS : List String :=
  ["#01cbff", "#0099cb", "#016797", "#fffe03", "#ffcb00", "#ff9835",
   "#fd6866", "#fe0002", "#cc0001", "#9a0100", "#640100"]

/-- The sentinel color returned for missing / non-numeric values. -/
def MISSING_COLOR : String := "#9e9e9e"

/-- The if-cascade of `aqhi_to_color` on a finite value: band index 0..10. -/
def bandIndex (v : ℚ) : ℕ :=
  if v ≤ 1 then 0 else if v ≤ 2 then 1 else if v ≤ 3 then 2 else if v ≤ 4 then 3
  else if v ≤ 5 then 4 else if v ≤ 6 then 5 else if v ≤ 7 then 6 else if v ≤ 8 then 7
  else if v ≤ 9 then 8 else if v ≤ 10 then 9 else 10

/-- The if-cascade of `aqhi_to_color` on an arbitrary float. On `nan` all the
`<=` comparisons are false so the final return is reached; likewise for `inf`;
`-inf` satisfies the first comparison. -/
def floatColor : PyFloat → String
  | .val v => AQHI_COLORS.getD (bandIndex v) MISSING_COLOR
  | .nan => AQHI_COLORS.getD 10 MISSING_COLOR
  | .inf => AQHI_COLORS.getD 10 MISSING_COLOR
  | .ninf => AQHI_COLORS.getD 0 MISSING_COLOR

/-- The `try: v = float(val) / except: return missing` step followed by the
band cascade. -/
def colorOfParsed : Option PyFloat → String
  | Option.none => MISSING_COLOR
  | some f => floatColor f

/-- `aqhi_to_color` from the source: missing sentinel for `None`/`NaN`,
missing sentinel when `float(val)` fails, otherwise the band cascade. -/
def aqhi_to_color (val : PyObj) : String :=
  match pdIsna val with
  | true => MISSING_COLOR
  | false => colorOfParsed (pyFloatOf val)

/-- Reference banding from the spec, stated via the ceiling function:
a value `v <= 10` falls in the band with inclusive upper bound
`max 1 ⌈v⌉`, and any `v > 10` is in the 11th (above-scale) band. -/
def specBandIndex (v : ℚ) : ℕ :=
  if (10 : ℚ) < v then 10 else (max 1 ⌈v⌉).toNat - 1

/-- The 12 fixed strings `aqhi_to_color` can return. -/
def TWELVE_COLORS : List String :=
  ["#9e9e9e", "#01cbff", "#0099cb", "#016797", "#fffe03", "#ffcb00", "#ff9835",
   "#fd6866", "#fe0002", "#cc0001", "#9a0100", "#640100"]

/-! ### Records and the pandas merge step

`RecX` embeds a row dict built by `parse_aqhi_xml` (XML variant);
`RecA` embeds a row dict built by `obs_to_df` / `to_dataframe` (API variants).
For the `observed` field the outer `Option` models presence of the dict key
(the pandas column exists iff some row has the key) and the inner `Option`
models a `None` value; both absent key and `None` are `na` to pandas. -/

/-- A row dict of the XML pipeline (`parse_aqhi_xml` output plus the
`source_file` tag added in `main`). -/
structure RecX where
  name : Option String := Option.none
  lat : Option PyFloat := Option.none
  lon : Option PyFloat := Option.none
  aqhi : Option PyFloat := Option.none
  observed : Option (Option String) := Option.none
  src : Option String := Option.none
deriving DecidableEq

/-- A row dict of the GeoMet API observation pipelines. -/
structure RecA where
  id : Option String := Option.none
  name : Option String := Option.none
  province : Option String := Option.none
  aqhi : Option ℚ := Option.none
  observed : Option (Option String) := Option.none
  lon : Option ℚ := Option.none
  lat : Option ℚ := Option.none
deriving DecidableEq

/-- pandas `isna` on an optional float: `None` and `NaN` are missing. -/
def isnaF : Option PyFloat → Bool
  | Option.none => true
  | some PyFloat.nan => true
  | some _ => false

/-- The sort key of `sort_values("observed")`: `na` iff the key is absent
or the value is `None`. -/
def obsValX (r : RecX) : Option String := r.observed.bind (fun x => x)

/-- The sort key for the API variants. -/
def obsValA (r : RecA) : Option String := r.observed.bind (fun x => x)

/-- Ordering used by `sort_values` (ascending, `na` placed last):
`a <= b` with `na` greater than every string. -/
def obsLe (a b : Option String) : Bool :=
  match a, b with
  | _, Option.none => true
  | Option.none, some _ => false
  | some s, some t => strLe s t

/-- The order relation on rows induced by their `observed` sort key. -/
def leObs (k : α → Option String) (a b : α) : Prop := obsLe (k a) (k b) = true

instance leObsDecidable (k : α → Option String) : DecidableRel (leObs k) :=
  fun a b => inferInstanceAs (Decidable (obsLe (k a) (k b) = true))

/-- `df.sort_values("observed")`: sort ascending by the `observed` key,
missing values last. -/
def sortObs (k : α → Option String) (l : List α) : List α :=
  List.insertionSort (leObs k) l

/-- Does a row keep its place in `groupby(key).tail(1)`: its group key is
present and no later row has the same key. -/
def keepLast [DecidableEq K] (g : α → Option K) (rs : List α) (r : α) : Bool :=
  (g r).isSome && !(rs.any (fun s => decide (g s = g r)))

/-- `df.groupby(key).tail(1)`: keep, in order, each row whose group key is
present and which is the last row of its group; rows with a missing group
key are dropped (pandas `groupby` default `dropna=True`). -/
def tailOne [DecidableEq K] (g : α → Option K) : List α → List α
  | [] => []
  | r :: rs => (if keepLast g rs r then [r] else []) ++ tailOne g rs

/-- Group key of the XML variant: `groupby(["name","lat","lon"])`; the key is
missing (row dropped) if any component is `na`. -/
def keyX (r : RecX) : Option (String × PyFloat × PyFloat) :=
  match r.name, r.lat, r.lon with
  | some n, some la, some lo =>
    if la = PyFloat.nan ∨ lo = PyFloat.nan then Option.none else some (n, la, lo)
  | _, _, _ => Option.none

/-- Group key of the API variants: `groupby("id")`. -/
def keyA (r : RecA) : Option String := r.id

/-- Row predicate of `dropna(subset=["lat","lon"])` for the XML variant. -/
def coordOkX (r : RecX) : Bool := !(isnaF r.lat) && !(isnaF r.lon)

/-- `df.dropna(subset=["lat","lon"])` for the XML variant. -/
def dropNaXY (rows : List RecX) : List RecX := rows.filter coordOkX

/-- Row predicate of `dropna(subset=["lat","lon"])` for the API variants. -/
def coordOkA (r : RecA) : Bool := r.lat.isSome && r.lon.isSome

/-- `df.dropna(subset=["lat","lon"])` for the API variants. -/
def dropNaA (rows : List RecA) : List RecA := rows.filter coordOkA

/-- `"observed" in df.columns`: the column exists iff some row dict has the
key. -/
def colPresentX (rows : List RecX) : Bool := rows.any (fun r => r.observed.isSome)

/-- `"observed" in df.columns` for the API variants. -/
def colPresentA (rows : List RecA) : Bool := rows.any (fun r => r.observed.isSome)

/-- Lines 242-244 of `aqhi_xml_to_map.py`:
`df = pd.DataFrame(rows).dropna(subset=["lat","lon"])` followed by
`if "observed" in df.columns: df = df.sort_values("observed").groupby(["name","lat","lon"], as_index=False).tail(1)`. -/
def mergeXml (rows : List RecX) : List RecX :=
  match colPresentX rows with
  | true => tailOne keyX (sortObs obsValX (dropNaXY rows))
  | false => dropNaXY rows

/-- Lines 92-94 of `scripts/aqhi_geomet_all.py` (`obs_to_df`): same merge but
grouped by `"id"` and guarded by `if not df.empty and "observed" in df.columns`. -/
def mergeObsAll (rows : List RecA) : List RecA :=
  match !(dropNaA rows).isEmpty && colPresentA rows with
  | true => tailOne keyA (sortObs obsValA (dropNaA rows))
  | false => dropNaA rows

/-- Lines 92-95 of `scripts/aqhi_geomet_to_geojson.py` (`to_dataframe`): same
merge grouped by `"id"`, guarded only by `if "observed" in df.columns`. -/
def mergeGeo (rows : List RecA) : List RecA :=
  match colPresentA rows with
  | true => tailOne keyA (sortObs obsValA (dropNaA rows))
  | false => dropNaA rows

/-! ### The API feature-to-row conversion and coloring -/

/-- Python `a or b` on two optional strings: falls through on `None` and on
the empty string. -/
def pyOrOpt (a b : Option String) : Option String :=
  match a with
  | some s => if s = ("") then b else some s
  | Option.none => b

/-- The `properties` dict of a GeoMet API feature (fields read by the
scripts; a missing key reads as `None`). -/
structure JProps where
  id : Option String := Option.none
  location_id : Option String := Option.none
  location_name_en : Option String := Option.none
  location_name_fr : Option String := Option.none
  province : Option String := Option.none
  aqhi : Option ℚ := Option.none
  observation_datetime : Option String := Option.none
deriving DecidableEq

/-- A GeoMet API feature: properties plus geometry coordinates.
`coordinates = Option.none` models a missing/null geometry or missing/empty
coordinates, which the code replaces by `[None, None]`. -/
structure JFeature where
  properties : JProps := {}
  coordinates : Option (Option ℚ × Option ℚ) := Option.none
deriving DecidableEq

/-- One row dict built in the loop of `obs_to_df` / `to_dataframe`. Note the
`observed` key is always present in the dict. -/
def rowOfObsFeature (f : JFeature) : RecA :=
  let p := f.properties
  let c := f.coordinates.getD (Option.none, Option.none)
  { id := pyOrOpt p.id p.location_id,
    name := pyOrOpt p.location_name_en p.location_name_fr,
    province := p.province,
    aqhi := p.aqhi,
    observed := some p.observation_datetime,
    lon := c.1,
    lat := c.2 }

/-- A merged row together with its derived `color` column. -/
structure RecAC extends RecA where
  color : String
deriving DecidableEq

/-- A merged XML row together with its derived `color` column. -/
structure RecXC extends RecX where
  color : String
deriving DecidableEq

/-- The value of the `aqhi` cell as seen by `aqhi_to_color` (API variants). -/
def pyObjOfQ : Option ℚ → PyObj
  | some q => .num (.val q)
  | Option.none => .pnone

/-- The value of the `aqhi` cell as seen by `aqhi_to_color` (XML variant). -/
def pyObjOfF : Option PyFloat → PyObj
  | some f => .num f
  | Option.none => .pnone

/-- `df["color"] = df["aqhi"].apply(aqhi_to_color)` for one API row. -/
def addColorA (r : RecA) : RecAC := { toRecA := r, color := aqhi_to_color (pyObjOfQ r.aqhi) }

/-- `df["color"] = df["aqhi"].apply(aqhi_to_color)` for one XML row. -/
def addColorX (r : RecX) : RecXC := { toRecX := r, color := aqhi_to_color (pyObjOfF r.aqhi) }

/-- `obs_to_df` of `scripts/aqhi_geomet_all.py`: features to rows, merge,
then the color column. -/
def obs_to_df (feats : List JFeature) : List RecAC :=
  (mergeObsAll (feats.map rowOfObsFeature)).map addColorA

/-- `to_dataframe` of `scripts/aqhi_geomet_to_geojson.py`. -/
def to_dataframe (feats : List JFeature) : List RecAC :=
  (mergeGeo (feats.map rowOfObsFeature)).map addColorA

/-! ### The XML record extractor (`parse_aqhi_xml`) -/

/-- An ElementTree node: tag, optional text, children. -/
inductive XNode where
  | node (tag : String) (text : Option String) (children : List XNode)

/-- The tag of a node. -/
def XNode.tag : XNode → String
  | .node t _ _ => t

/-- The text of a node (`elem.text`, may be `None`). -/
def XNode.text : XNode → Option String
  | .node _ x _ => x

/-- The children of a node. -/
def XNode.children : XNode → List XNode
  | .node _ _ c => c

mutual
/-- `root.iter()`: the node and all its descendants in document order. -/
def iterNodes : XNode → List XNode
  | .node t x c => .node t x c :: iterForest c

/-- `iter` over a list of sibling subtrees. -/
def iterForest : List XNode → List XNode
  | [] => []
  | n :: ns => iterNodes n ++ iterForest ns
end

/-- The suffix after the last closing brace, i.e. `l.split('}')[-1]`. -/
def afterLastBrace (l : List Char) : List Char :=
  (l.reverse.takeWhile (fun c => !(c == '\x7d'))).reverse

/-- `child.tag.lower().split('}')[-1]`: lowercase, strip a namespace. -/
def localTag (t : String) : String := ⟨afterLastBrace ((lowerStr t).data)⟩

/-- Lowercased namespace-stripped tags of a node's direct children. -/
def childLocalTags (n : XNode) : List String := n.children.map (fun c => localTag c.tag)

/-- Latitude-like tags. -/
def latTags : List String := ["latitude", "lat"]

/-- Longitude-like tags. -/
def lonTags : List String := ["longitude", "lon"]

/-- AQHI-index-like tags. -/
def idxTags : List String := ["air_quality_health_index", "aqhi", "index"]

/-- Name-like tags. -/
def nameTags : List String := ["name", "community", "location_name_en"]

/-- Timestamp-like tags. -/
def timeTags : List String := ["observation_datetime", "datetime", "date", "time"]

/-- The container-node test of `parse_aqhi_xml`: the direct children's tags
include a latitude-like, a longitude-like and an index-like tag. -/
def nodeMatches (n : XNode) : Bool :=
  let ct := childLocalTags n
  latTags.any (fun t => t ∈ ct) && lonTags.any (fun t => t ∈ ct) &&
    idxTags.any (fun t => t ∈ ct)

/-- The fresh record dict
`{"name": None, "lat": None, "lon": None, "aqhi": None, "observed": None}`:
every key is present, each value is `None`. -/
def initRecX : RecX := { observed := some Option.none }

/-- Python `s.strip()`. -/
def trimPy (s : String) : String := ⟨pyWsStrip s.data⟩

/-- One iteration of the child loop of `parse_aqhi_xml`. -/
def updateRecX (r : RecX) (child : XNode) : RecX :=
  let ctag := localTag child.tag
  let text := trimPy (child.text.getD (""))
  if ctag ∈ nameTags then
    { r with name := if text = ("") then r.name else some text }
  else if ctag ∈ latTags then
    match parsePyFloat text with
    | some f => { r with lat := some f }
    | Option.none => r
  else if ctag ∈ lonTags then
    match parsePyFloat text with
    | some f => { r with lon := some f }
    | Option.none => r
  else if ctag ∈ idxTags then
    match parsePyFloat text with
    | some f => { r with aqhi := some f }
    | Option.none => r
  else if ctag ∈ timeTags then
    { r with observed := some (if text = ("") then r.observed.getD Option.none else some text) }
  else r

/-- The final emission check: a record is appended only when both
coordinates were successfully parsed (lines 145-146). -/
def emitIfCoords (r0 : RecX) : List RecX :=
  if r0.lat.isSome && r0.lon.isSome then [r0] else []

/-- Record emission for one container node: build the record from the
children and emit it only if both coordinates were parsed. -/
def recordOfNode (n : XNode) : List RecX :=
  if nodeMatches n then emitIfCoords (n.children.foldl updateRecX initRecX) else []

/-- The record extraction of `parse_aqhi_xml` over a well-formed tree. -/
def extractRecords (root : XNode) : List RecX :=
  (iterNodes root).flatMap recordOfNode

/-- The outcome of `ET.fromstring(xml_bytes)` on one document:
either a parse error or a well-formed tree. -/
inductive XDoc where
  | malformed
  | ok (root : XNode)

/-- `parse_aqhi_xml`: on `ET.ParseError` the empty row list is returned
(the `except` clause at lines 120-121), otherwise records are extracted. -/
def parse_aqhi_xml : XDoc → List RecX
  | .malformed => []
  | .ok root => extractRecords root

/-- The outcome of `fetch_xml(u)` for one URL: a raised request error, or a
body (itself either malformed or well-formed XML). -/
inductive Fetched where
  | fetchError
  | ok (d : XDoc)

/-- The per-document loop of `main` (lines 228-235): each URL is fetched and
parsed inside `try`, records are tagged with their source file and
accumulated, and any exception is logged and skipped. -/
def runFetchLoop : List (String × Fetched) → List RecX
  | [] => []
  | (_, .fetchError) :: rest => runFetchLoop rest
  | (u, .ok d) :: rest =>
    (parse_aqhi_xml d).map (fun r => { r with src := some u }) ++ runFetchLoop rest

/-! ### The URL filter (`filter_realtime_observation_urls`) -/

/-- Is `p` a prefix of `l`? -/
def isPrefixL : List Char → List Char → Bool
  | [], _ => true
  | _ :: _, [] => false
  | a :: as, b :: bs => a == b && isPrefixL as bs

/-- Is `p` a contiguous substring of `l`? (Python `p in l`.) -/
def isInfixL (p : List Char) : List Char → Bool
  | [] => isPrefixL p []
  | c :: t => isPrefixL p (c :: t) || isInfixL p t

/-- Python `needle in hay` on strings. -/
def strContains (hay needle : String) : Bool := isInfixL needle.data hay.data

/-- Python `s.endswith(t)`. -/
def strEndsWith (s t : String) : Bool := isPrefixL t.data.reverse s.data.reverse

/-- Python `list.sort()` on strings (lexicographic by code point). -/
def sortStrings (l : List String) : List String :=
  List.insertionSort (fun a b => strLe a b = true) l

/-- Python `l[i:]` on a string list. -/
def pySliceFrom (l : List String) (i : Int) : List String :=
  if i < 0 then l.drop (l.length - (-i).toNat) else l.drop i.toNat

/-- The keep predicate of `filter_realtime_observation_urls` for one URL. -/
def urlKeep (rset : Option (List String)) (u : String) : Bool :=
  let lu := lowerStr u
  strContains lu ("observation") && strContains lu ("realtime") &&
    strEndsWith lu (".xml") &&
    (match rset with
     | Option.none => true
     | some rs => rs.any (fun r => strContains lu ("/" ++ r ++ "/")))

/-- `regions = set(r.lower() for r in regions) if regions else None`:
`None` and the empty list are falsy. -/
def rsetOf (regions : Option (List String)) : Option (List String) :=
  match regions with
  | some [] => Option.none
  | some rs => some (rs.map lowerStr)
  | Option.none => Option.none

/-- `filter_realtime_observation_urls(urls, regions, limit)`: keep realtime
observation `.xml` URLs (optionally restricted to the requested regions),
sort lexically, and keep the last `limit` entries when `limit` is truthy. -/
def filter_realtime_observation_urls (urls : List String)
    (regions : Option (List String)) (limit : Int) : List String :=
  if limit == 0 then sortStrings (urls.filter (urlKeep (rsetOf regions)))
  else pySliceFrom (sortStrings (urls.filter (urlKeep (rsetOf regions)))) (-limit)

/-! ### The bounding-box filter -/

/-- Pandas `x >= w` on an optional float cell: false on `na` and `NaN`. -/
def cellGe (x : Option PyFloat) (w : ℚ) : Bool :=
  match x with
  | some f => pfLe (.val w) f
  | Option.none => false

/-- Pandas `x <= e` on an optional float cell. -/
def cellLe (x : Option PyFloat) (e : ℚ) : Bool :=
  match x with
  | some f => pfLe f (.val e)
  | Option.none => false

/-- Pandas `x >= w` on an optional rational cell. -/
def cellGeQ (x : Option ℚ) (w : ℚ) : Bool :=
  match x with
  | some v => decide (w ≤ v)
  | Option.none => false

/-- Pandas `x <= e` on an optional rational cell. -/
def cellLeQ (x : Option ℚ) (e : ℚ) : Bool :=
  match x with
  | some v => decide (v ≤ e)
  | Option.none => false

/-- Lines 249-250 of `aqhi_xml_to_map.py`:
`df[(df["lon"] >= W) & (df["lon"] <= E) & (df["lat"] >= S) & (df["lat"] <= N)]`. -/
def bboxFilterX (W S E N : ℚ) (df : List RecXC) : List RecXC :=
  df.filter (fun r => cellGe r.lon W && cellLe r.lon E && cellGe r.lat S && cellLe r.lat N)

/-- Lines 238-239 of `scripts/aqhi_geomet_all.py`: the same filter on an API
dataframe. -/
def bboxFilterA (W S E N : ℚ) (df : List RecAC) : List RecAC :=
  df.filter (fun r => cellGeQ r.lon W && cellLeQ r.lon E && cellGeQ r.lat S && cellLeQ r.lat N)

/-! ### The GeoJSON writer -/

/-- A cell of the final dataframe: missing, a string, or a float. -/
inductive Cell where
  | na
  | cs (v : String)
  | cf (v : PyFloat)
deriving DecidableEq

/-- `pd.isna` on a cell. -/
def cellIsNa : Cell → Bool
  | .na => true
  | .cf PyFloat.nan => true
  | _ => false

/-- A JSON value in a feature's properties. -/
inductive JVal where
  | null
  | js (v : String)
  | jf (v : PyFloat)
deriving DecidableEq

/-- `None if pd.isna(r[k]) else r[k]` for one property cell. -/
def jvalOfCell (c : Cell) : JVal :=
  match cellIsNa c with
  | true => .null
  | false =>
    match c with
    | .cs v => .js v
    | .cf v => .jf v
    | .na => .null

/-- `float(r[k])` on a coordinate cell (the final dataframes always hold a
float there). -/
def cellFloat : Option Cell → Option PyFloat
  | some (.cf v) => some v
  | _ => Option.none

/-- One GeoJSON feature: Point coordinates `[lon, lat]` and properties. -/
structure GeoFeature where
  coordinates : Option PyFloat × Option PyFloat
  properties : List (String × JVal)
deriving DecidableEq

/-- The feature built for one dataframe row by `build_geojson` /
`df_to_geojson`: properties are all the non-coordinate columns in order. -/
def featureOfRow (row : List (String × Cell)) : GeoFeature :=
  { coordinates := (cellFloat ((List.lookup ("lon") row)), cellFloat ((List.lookup ("lat") row))),
    properties := (row.filter (fun kc => !(kc.1 == ("lat")) && !(kc.1 == ("lon")))).map
      (fun kc => (kc.1, jvalOfCell kc.2)) }

/-- `build_geojson` / `df_to_geojson`: the features of a FeatureCollection,
one per dataframe row. -/
def build_geojson (rows : List (List (String × Cell))) : List GeoFeature :=
  rows.map featureOfRow

/-- An optional string cell. -/
def cellOfOptStr : Option String → Cell
  | some s => .cs s
  | Option.none => .na

/-- An optional float cell. -/
def cellOfOptF : Option PyFloat → Cell
  | some f => .cf f
  | Option.none => .na

/-- An optional rational cell (API values are plain JSON numbers). -/
def cellOfOptQ : Option ℚ → Cell
  | some q => .cf (.val q)
  | Option.none => .na

/-- The column selection `df[["name","aqhi","observed","color","lat","lon"]]`
of the XML pipeline, as an ordered row dict. -/
def rowX (r : RecXC) : List (String × Cell) :=
  [(("name"), cellOfOptStr r.name), (("aqhi"), cellOfOptF r.aqhi),
   (("observed"), cellOfOptStr (obsValX r.toRecX)), (("color"), Cell.cs r.color),
   (("lat"), cellOfOptF r.lat), (("lon"), cellOfOptF r.lon)]

/-- The column selection
`df[["id","name","province","aqhi","observed","color","lat","lon"]]` of the
API observation pipeline. -/
def rowA (r : RecAC) : List (String × Cell) :=
  [(("id"), cellOfOptStr r.id), (("name"), cellOfOptStr r.name),
   (("province"), cellOfOptStr r.province), (("aqhi"), cellOfOptQ r.aqhi),
   (("observed"), cellOfOptStr (obsValA r.toRecA)), (("color"), Cell.cs r.color),
   (("lat"), cellOfOptQ r.lat), (("lon"), cellOfOptQ r.lon)]

/-- `null` or a JSON string, for the explicit feature description. -/
def jStrOpt : Option String → JVal
  | some s => .js s
  | Option.none => .null

/-- `null` or a JSON number, for a float column: `NaN` serializes as null. -/
def jFOpt : Option PyFloat → JVal
  | some PyFloat.nan => .null
  | some f => .jf f
  | Option.none => .null

/-- `null` or a JSON number, for a rational column. -/
def jQOpt : Option ℚ → JVal
  | some q => .jf (.val q)
  | Option.none => .null

/-! ### Concrete sample inputs used to instantiate the theorems -/

/-- Scenario record: StationA observed at `2024-01-01T00:00`. -/
def wreca : RecX :=
  { name := some ("StationA"), lat := some (.val 53), lon := some (.val (-113)),
    aqhi := some (.val 3), observed := some (some ("2024-01-01T00:00")) }

/-- Scenario record: StationA observed at `2024-01-02T00:00`. -/
def wrecb : RecX :=
  { name := some ("StationA"), lat := some (.val 53), lon := some (.val (-113)),
    aqhi := some (.val 5), observed := some (some ("2024-01-02T00:00")) }

/-- A duplicate-prone record with coordinates but no timestamp field. -/
def wdup : RecX :=
  { name := some ("StationB"), lat := some (.val 51), lon := some (.val (-114)),
    aqhi := some (.val 2) }

/-- A small observation XML tree with one station container node. -/
def wtree : XNode :=
  .node ("data") Option.none [
    .node ("station") Option.none [
      .node ("latitude") (some ("53.5")) [],
      .node ("longitude") (some ("-113.5")) [],
      .node ("aqhi") (some ("3.2")) [],
      .node ("name") (some ("Edmonton")) [],
      .node ("observation_datetime") (some ("2024-01-01T00:00")) []]]

/-- The record extracted from `wtree`. -/
def wxrec : RecX :=
  { name := some ("Edmonton"), lat := some (.val (mkRat 107 2)),
    lon := some (.val (mkRat (-227) 2)), aqhi := some (.val (mkRat 16 5)),
    observed := some (some ("2024-01-01T00:00")) }

/-- A realtime observation URL in the `atl` region. -/
def wurlAtl : String :=
  "https://dd.weather.gc.ca/air_quality/aqhi/atl/observation/realtime/xml/2024050100_AQHI.xml"

/-- A realtime observation URL in the `ont` region. -/
def wurlOnt : String :=
  "https://dd.weather.gc.ca/air_quality/aqhi/ont/observation/realtime/xml/2023050100_AQHI.xml"

/-- A URL with both tokens that does not end in `.xml`. -/
def wurlTxt : String :=
  "https://dd.weather.gc.ca/air_quality/aqhi/atl/observation/realtime/data.txt"

/-- An API feature with no station id but complete coordinates and value. -/
def wfeatNoId : JFeature :=
  { properties :=
      { location_name_en := some ("Ghost"), aqhi := some 4,
        observation_datetime := some ("2024-01-01T00:00") },
    coordinates := some (some (-113), some 53) }

/-- An API feature with a station id. -/
def wfeatId : JFeature :=
  { properties :=
      { id := some ("S1"), aqhi := some 4,
        observation_datetime := some ("2024-01-01T00:00") },
    coordinates := some (some (-113), some 53) }

/-- The colored record produced from `wfeatId`. -/
def wrecIdC : RecAC :=
  { id := some ("S1"), aqhi := some 4, observed := some (some ("2024-01-01T00:00")),
    lon := some (-113), lat := some 53, color := "#fffe03" }

/-- A colored XML record inside the Alberta bounding box, at `(-115, 55)`. -/
def wrecIn : RecXC :=
  { lat := some (.val 55), lon := some (.val (-115)), color := "#9e9e9e" }

/-- A colored XML record outside the Alberta bounding box, at `(-130, 50)`. -/
def wrecOut : RecXC :=
  { lat := some (.val 50), lon := some (.val (-130)), color := "#9e9e9e" }

/-! ## Lemmas about the color mapper -/

theorem specBandIndex_of_le_one (v : ℚ) (h : v ≤ 1) : specBandIndex v = 0 := by
  have h1 : ⌈v⌉ ≤ 1 := Int.ceil_le.mpr (by exact_mod_cast h)
  have hnot : ¬ (10 : ℚ) < v := by push_neg; linarith
  unfold specBandIndex
  rw [if_neg hnot]
  omega

theorem specBandIndex_of_band (v : ℚ) (k : ℤ) (hk1 : 1 ≤ k) (hk10 : k ≤ 10)
    (hlo : (k : ℚ) - 1 < v) (hhi : v ≤ (k : ℚ)) : specBandIndex v = (k - 1).toNat := by
  have h1 : ⌈v⌉ ≤ k := Int.ceil_le.mpr hhi
  have h2 : k - 1 < ⌈v⌉ := Int.lt_ceil.mpr (by push_cast; linarith)
  have hnot : ¬ (10 : ℚ) < v := by
    push_neg
    have : (k : ℚ) ≤ 10 := by exact_mod_cast hk10
    linarith
  unfold specBandIndex
  rw [if_neg hnot]
  omega

theorem specBandIndex_of_gt_ten (v : ℚ) (h : (10 : ℚ) < v) : specBandIndex v = 10 := by
  unfold specBandIndex
  rw [if_pos h]

theorem bandIndex_eq_spec (v : ℚ) : bandIndex v = specBandIndex v := by
  unfold bandIndex
  split_ifs with h1 h2 h3 h4 h5 h6 h7 h8 h9 h10
  · rw [specBandIndex_of_le_one v h1]
  · rw [specBandIndex_of_band v 2 (by decide) (by decide) (by push_neg at h1; push_cast; linarith)
      (by push_cast; linarith)]
    decide
  · rw [specBandIndex_of_band v 3 (by decide) (by decide) (by push_neg at h2; push_cast; linarith)
      (by push_cast; linarith)]
    decide
  · rw [specBandIndex_of_band v 4 (by decide) (by decide) (by push_neg at h3; push_cast; linarith)
      (by push_cast; linarith)]
    decide
  · rw [specBandIndex_of_band v 5 (by decide) (by decide) (by push_neg at h4; push_cast; linarith)
      (by push_cast; linarith)]
    decide
  · rw [specBandIndex_of_band v 6 (by decide) (by decide) (by push_neg at h5; push_cast; linarith)
      (by push_cast; linarith)]
    decide
  · rw [specBandIndex_of_band v 7 (by decide) (by decide) (by push_neg at h6; push_cast; linarith)
      (by push_cast; linarith)]
    decide
  · rw [specBandIndex_of_band v 8 (by decide) (by decide) (by push_neg at h7; push_cast; linarith)
      (by push_cast; linarith)]
    decide
  · rw [specBandIndex_of_band v 9 (by decide) (by decide) (by push_neg at h8; push_cast; linarith)
      (by push_cast; linarith)]
    decide
  · rw [specBandIndex_of_band v 10 (by decide) (by decide) (by push_neg at h9; push_cast; linarith)
      (by push_cast; linarith)]
    decide
  · rw [specBandIndex_of_gt_ten v (by push_neg at h10; exact h10)]

theorem bandIndex_mono (v w : ℚ) (h : v ≤ w) : bandIndex v ≤ bandIndex w := by
  rw [bandIndex_eq_spec, bandIndex_eq_spec]
  have hc : ⌈v⌉ ≤ ⌈w⌉ := Int.ceil_le_ceil h
  unfold specBandIndex
  split_ifs with hv hw hw
  · exact le_refl _
  · exact absurd (lt_of_lt_of_le hv h) hw
  · have : ⌈v⌉ ≤ 10 := Int.ceil_le.mpr (by push_neg at hv; exact_mod_cast hv)
    omega
  · omega

theorem bandIndex_le_ten (v : ℚ) : bandIndex v ≤ 10 := by
  unfold bandIndex
  split_ifs <;> omega

theorem colors_getD_mem (n : ℕ) (h : n ≤ 10) :
    AQHI_COLORS.getD n MISSING_COLOR ∈ TWELVE_COLORS := by
  interval_cases n <;> decide

theorem floatColor_mem (f : PyFloat) : floatColor f ∈ TWELVE_COLORS := by
  cases f with
  | val v => exact colors_getD_mem _ (bandIndex_le_ten v)
  | nan => decide
  | inf => decide
  | ninf => decide

theorem colorOfParsed_mem (o : Option PyFloat) : colorOfParsed o ∈ TWELVE_COLORS := by
  cases o with
  | none => decide
  | some f => exact floatColor_mem f

theorem aqhi_to_color_mem (x : PyObj) : aqhi_to_color x ∈ TWELVE_COLORS := by
  unfold aqhi_to_color
  cases pdIsna x with
  | true => show MISSING_COLOR ∈ TWELVE_COLORS; decide
  | false => exact colorOfParsed_mem (pyFloatOf x)

theorem color_output_not_numeric (x : PyObj) :
    parsePyFloat (aqhi_to_color x) = Option.none := by
  have h := aqhi_to_color_mem x
  simp only [TWELVE_COLORS, List.mem_cons, List.not_mem_nil, or_false] at h
  rcases h with h | h | h | h | h | h | h | h | h | h | h | h <;> rw [h] <;> decide

/-! ## Lemmas about the merge machinery -/

theorem strLe_refl (s : String) : strLe s s = true := by
  unfold strLe
  induction s.data with
  | nil => rfl
  | cons c cs ih =>
    unfold lexLe
    simp only [lt_irrefl, if_false]
    exact ih

theorem lexLe_elim {x y : Char} {xs ys : List Char}
    (h : lexLe (x :: xs) (y :: ys) = true) :
    x.toNat < y.toNat ∨ (x.toNat = y.toNat ∧ lexLe xs ys = true) := by
  unfold lexLe at h
  split_ifs at h with h1 h2
  · exact Or.inl h1
  · exact Or.inr ⟨by omega, h⟩

theorem lexLe_trans : ∀ {a b c : List Char},
    lexLe a b = true → lexLe b c = true → lexLe a c = true := by
  intro a
  induction a with
  | nil => intro b c _ _; rfl
  | cons x xs ih =>
    intro b c hab hbc
    cases b with
    | nil => simp [lexLe] at hab
    | cons y ys =>
      cases c with
      | nil => simp [lexLe] at hbc
      | cons z zs =>
        rcases lexLe_elim hab with h1 | ⟨h1, h1l⟩ <;>
          rcases lexLe_elim hbc with h2 | ⟨h2, h2l⟩
        · unfold lexLe; rw [if_pos (by omega)]
        · unfold lexLe; rw [if_pos (by omega)]
        · unfold lexLe; rw [if_pos (by omega)]
        · unfold lexLe
          rw [if_neg (by omega), if_neg (by omega)]
          exact ih h1l h2l

theorem lexLe_total : ∀ (a b : List Char), lexLe a b = true ∨ lexLe b a = true := by
  intro a
  induction a with
  | nil => intro b; left; rfl
  | cons x xs ih =>
    intro b
    cases b with
    | nil => right; rfl
    | cons y ys =>
      unfold lexLe
      by_cases hxy : x.toNat < y.toNat
      · left; rw [if_pos hxy]
      · by_cases hyx : y.toNat < x.toNat
        · right; rw [if_pos hyx]
        · rw [if_neg hxy, if_neg hyx, if_neg hyx, if_neg hxy]
          exact ih ys

theorem obsLe_refl (a : Option String) : obsLe a a = true := by
  cases a with
  | none => rfl
  | some s => exact strLe_refl s

theorem obsLe_trans {a b c : Option String} (hab : obsLe a b = true)
    (hbc : obsLe b c = true) : obsLe a c = true := by
  cases a <;> cases b <;> cases c <;> simp_all [obsLe]
  exact lexLe_trans hab hbc

theorem obsLe_total (a b : Option String) : obsLe a b = true ∨ obsLe b a = true := by
  cases a <;> cases b <;> simp_all [obsLe]
  exact lexLe_total _ _

section MergeLemmas

variable {α : Type} {K : Type} [DecidableEq K] {g : α → Option K} {k : α → Option String}

theorem sortObs_pairwise (k : α → Option String) (l : List α) :
    (sortObs k l).Pairwise (leObs k) := by
  haveI : IsTotal α (leObs k) := ⟨fun a b => obsLe_total (k a) (k b)⟩
  haveI : IsTrans α (leObs k) := ⟨fun a b c hab hbc => obsLe_trans hab hbc⟩
  exact List.sorted_insertionSort (leObs k) l

theorem sortObs_perm (k : α → Option String) (l : List α) :
    List.Perm (sortObs k l) l :=
  List.perm_insertionSort (leObs k) l

theorem sortObs_mem {l : List α} {a : α} : a ∈ sortObs k l ↔ a ∈ l :=
  (sortObs_perm k l).mem_iff

theorem keepLast_spec {rs : List α} {r : α} (h : keepLast g rs r = true) :
    (g r).isSome = true ∧ ∀ s ∈ rs, g s ≠ g r := by
  simp only [keepLast, Bool.and_eq_true, Bool.not_eq_true', List.any_eq_false,
    decide_eq_true_eq] at h
  exact h

theorem tailOne_subset : ∀ {l : List α} {a : α}, a ∈ tailOne g l → a ∈ l := by
  intro l
  induction l with
  | nil => intro a h; simp [tailOne] at h
  | cons r rs ih =>
    intro a h
    unfold tailOne at h
    rcases List.mem_append.mp h with h1 | h1
    · rcases Bool.eq_false_or_eq_true (keepLast g rs r) with hk | hk <;>
        simp [hk] at h1
      exact h1 ▸ List.mem_cons_self _ _
    · exact List.mem_cons_of_mem _ (ih h1)

theorem tailOne_key_isSome : ∀ {l : List α} {a : α},
    a ∈ tailOne g l → (g a).isSome = true := by
  intro l
  induction l with
  | nil => intro a h; simp [tailOne] at h
  | cons r rs ih =>
    intro a h
    unfold tailOne at h
    rcases List.mem_append.mp h with h1 | h1
    · rcases Bool.eq_false_or_eq_true (keepLast g rs r) with hk | hk <;>
        simp [hk] at h1
      exact h1 ▸ (keepLast_spec hk).1
    · exact ih h1

theorem tailOne_pairwise : ∀ {l : List α},
    (tailOne g l).Pairwise (fun a b => g a ≠ g b) := by
  intro l
  induction l with
  | nil => simp [tailOne]
  | cons r rs ih =>
    unfold tailOne
    rcases Bool.eq_false_or_eq_true (keepLast g rs r) with hk | hk
    · rw [if_pos hk]
      refine List.Pairwise.cons ?_ ih
      intro b hb heq
      exact (keepLast_spec hk).2 b (tailOne_subset hb) heq.symm
    · simpa [hk] using ih

theorem tailOne_max (le : α → α → Prop) (hrefl : ∀ x, le x x) :
    ∀ {l : List α} {a b : α}, l.Pairwise le → a ∈ tailOne g l → b ∈ l →
      g b = g a → le b a := by
  intro l
  induction l with
  | nil => intro a b _ ha; simp [tailOne] at ha
  | cons r rs ih =>
    intro a b hp ha hb hk
    rcases List.pairwise_cons.mp hp with ⟨hr, hp2⟩
    unfold tailOne at ha
    rcases List.mem_append.mp ha with h2 | h2
    · rcases Bool.eq_false_or_eq_true (keepLast g rs r) with hkp | hkp <;>
        simp [hkp] at h2
      subst h2
      rcases List.mem_cons.mp hb with h1 | h1
      · rw [h1]; exact hrefl a
      · exact absurd hk ((keepLast_spec hkp).2 b h1)
    · rcases List.mem_cons.mp hb with h1 | h1
      · exact h1 ▸ hr a (tailOne_subset h2)
      · exact ih hp2 h2 h1 hk

/-- Survivors of the sorted-group-tail step carry the lexically greatest
timestamp of their group. -/
theorem sorted_tail_max {df : List α} {a b : α}
    (ha : a ∈ tailOne g (sortObs k df)) (hb : b ∈ df) (hk : g b = g a) :
    obsLe (k b) (k a) = true :=
  tailOne_max (leObs k) (fun x => obsLe_refl (k x)) (sortObs_pairwise k df) ha
    (sortObs_mem.mpr hb) hk

end MergeLemmas

/-! ## Variant glue lemmas -/

theorem keyX_isSome_facts {r : RecX} (h : (keyX r).isSome = true) :
    r.name.isSome = true ∧ isnaF r.lat = false ∧ isnaF r.lon = false := by
  obtain ⟨name, lat, lon, aqhi, obs, src⟩ := r
  cases name with
  | none => simp [keyX] at h
  | some n =>
    cases lat with
    | none => simp [keyX] at h
    | some la =>
      cases lon with
      | none => simp [keyX] at h
      | some lo =>
        by_cases hc : la = PyFloat.nan ∨ lo = PyFloat.nan
        · simp [keyX, hc] at h
        · push_neg at hc
          refine ⟨rfl, ?_, ?_⟩
          · cases la <;> simp_all [isnaF]
          · cases lo <;> simp_all [isnaF]

theorem colPresentX_true {rows : List RecX}
    (H : ∀ r ∈ rows, (r.observed).isSome = true) (hne : rows ≠ []) :
    colPresentX rows = true := by
  cases rows with
  | nil => exact absurd rfl hne
  | cons r0 rest =>
    exact List.any_eq_true.mpr ⟨r0, List.mem_cons_self _ _, H r0 (List.mem_cons_self _ _)⟩

theorem colPresentA_true {rows : List RecA}
    (H : ∀ r ∈ rows, (r.observed).isSome = true) (hne : rows ≠ []) :
    colPresentA rows = true := by
  cases rows with
  | nil => exact absurd rfl hne
  | cons r0 rest =>
    exact List.any_eq_true.mpr ⟨r0, List.mem_cons_self _ _, H r0 (List.mem_cons_self _ _)⟩

theorem colPresentX_false {rows : List RecX}
    (H : ∀ r ∈ rows, r.observed = Option.none) : colPresentX rows = false := by
  rw [colPresentX, List.any_eq_false]
  intro r hr
  rw [H r hr]
  simp

theorem colPresentA_false {rows : List RecA}
    (H : ∀ r ∈ rows, r.observed = Option.none) : colPresentA rows = false := by
  rw [colPresentA, List.any_eq_false]
  intro r hr
  rw [H r hr]
  simp

theorem mergeXml_col {rows : List RecX} (h : colPresentX rows = true) :
    mergeXml rows = tailOne keyX (sortObs obsValX (dropNaXY rows)) := by
  unfold mergeXml
  rw [h]

theorem mergeXml_nocol {rows : List RecX} (h : colPresentX rows = false) :
    mergeXml rows = dropNaXY rows := by
  unfold mergeXml
  rw [h]

theorem mergeGeo_col {rows : List RecA} (h : colPresentA rows = true) :
    mergeGeo rows = tailOne keyA (sortObs obsValA (dropNaA rows)) := by
  unfold mergeGeo
  rw [h]

theorem mergeGeo_nocol {rows : List RecA} (h : colPresentA rows = false) :
    mergeGeo rows = dropNaA rows := by
  unfold mergeGeo
  rw [h]

theorem mergeObsAll_guard_true {rows : List RecA}
    (h : (!(dropNaA rows).isEmpty && colPresentA rows) = true) :
    mergeObsAll rows = tailOne keyA (sortObs obsValA (dropNaA rows)) := by
  unfold mergeObsAll
  rw [h]

theorem mergeObsAll_guard_false {rows : List RecA}
    (h : (!(dropNaA rows).isEmpty && colPresentA rows) = false) :
    mergeObsAll rows = dropNaA rows := by
  unfold mergeObsAll
  rw [h]

/-- Under "every record carries the observed key", each merge result is
either empty or the sorted-group-tail of the coordinate-filtered rows. -/
theorem mergeXml_under {rows : List RecX}
    (H : ∀ r ∈ rows, (r.observed).isSome = true) :
    mergeXml rows = [] ∧ rows = [] ∨
      mergeXml rows = tailOne keyX (sortObs obsValX (dropNaXY rows)) := by
  cases rows with
  | nil => exact Or.inl ⟨by rw [mergeXml_nocol (by rfl)]; rfl, rfl⟩
  | cons r0 rest =>
    exact Or.inr (mergeXml_col (colPresentX_true H (by simp)))

theorem mergeGeo_under {rows : List RecA}
    (H : ∀ r ∈ rows, (r.observed).isSome = true) :
    mergeGeo rows = [] ∨
      mergeGeo rows = tailOne keyA (sortObs obsValA (dropNaA rows)) := by
  cases rows with
  | nil => exact Or.inl (by rw [mergeGeo_nocol (by rfl)]; rfl)
  | cons r0 rest =>
    exact Or.inr (mergeGeo_col (colPresentA_true H (by simp)))

theorem mergeObsAll_under {rows : List RecA}
    (H : ∀ r ∈ rows, (r.observed).isSome = true) :
    mergeObsAll rows = [] ∨
      mergeObsAll rows = tailOne keyA (sortObs obsValA (dropNaA rows)) := by
  cases hg : (!(dropNaA rows).isEmpty && colPresentA rows) with
  | true => exact Or.inr (mergeObsAll_guard_true hg)
  | false =>
    left
    rw [mergeObsAll_guard_false hg]
    rcases Bool.and_eq_false_iff.mp hg with h1 | h1
    · have h2 : (dropNaA rows).isEmpty = true := by
        cases hbe : (dropNaA rows).isEmpty with
        | true => rfl
        | false => rw [hbe] at h1; exact absurd h1 (by simp)
      exact List.isEmpty_iff.mp h2
    · have : rows = [] := by
        cases rows with
        | nil => rfl
        | cons r0 rest =>
          have hcp := colPresentA_true H (by simp)
          rw [hcp] at h1
          exact absurd h1 (by simp)
      rw [this]
      rfl

/-- Every merge survivor is a row of the coordinate-filtered dataframe. -/
theorem mergeXml_sub_df {rows : List RecX} {r : RecX} (h : r ∈ mergeXml rows) :
    r ∈ dropNaXY rows := by
  cases hc : colPresentX rows with
  | true =>
    rw [mergeXml_col hc] at h
    exact sortObs_mem.mp (tailOne_subset h)
  | false => rwa [mergeXml_nocol hc] at h

theorem mergeGeo_sub_df {rows : List RecA} {r : RecA} (h : r ∈ mergeGeo rows) :
    r ∈ dropNaA rows := by
  cases hc : colPresentA rows with
  | true =>
    rw [mergeGeo_col hc] at h
    exact sortObs_mem.mp (tailOne_subset h)
  | false => rwa [mergeGeo_nocol hc] at h

theorem mergeObsAll_sub_df {rows : List RecA} {r : RecA}
    (h : r ∈ mergeObsAll rows) : r ∈ dropNaA rows := by
  cases hg : (!(dropNaA rows).isEmpty && colPresentA rows) with
  | true =>
    rw [mergeObsAll_guard_true hg] at h
    exact sortObs_mem.mp (tailOne_subset h)
  | false => rwa [mergeObsAll_guard_false hg] at h

/-! ## Claim theorems -/

/-- C2: the color mapper equals the reference banding definition: `None` or a
non-numeric value returns the missing color `"#9e9e9e"`; a numeric value `v`
is banded by inclusive upper bounds 1..10 (equivalently, by `max 1 ⌈v⌉`) into
the 10 first palette colors, any `v > 10` returns the 11th (above-scale)
color; the result is always one of exactly 12 fixed strings; the band index
is monotonically non-decreasing in `v`; and `aqhi_to_color 7.5 = "#fe0002"`. -/
theorem C2_color_banding :
    (aqhi_to_color PyObj.pnone = MISSING_COLOR) ∧
    (aqhi_to_color (.num PyFloat.nan) = MISSING_COLOR) ∧
    (∀ s, parsePyFloat s = Option.none → aqhi_to_color (.str s) = MISSING_COLOR) ∧
    (∀ v : ℚ, aqhi_to_color (.num (.val v)) =
      AQHI_COLORS.getD (specBandIndex v) MISSING_COLOR) ∧
    (∀ v : ℚ, 10 < v → aqhi_to_color (.num (.val v)) = "#640100") ∧
    (∀ x, aqhi_to_color x ∈ TWELVE_COLORS) ∧
    (∀ v w : ℚ, v ≤ w → bandIndex v ≤ bandIndex w) ∧
    (aqhi_to_color (.num (.val (15 / 2))) = "#fe0002") := by
  refine ⟨rfl, rfl, ?_, ?_, ?_, aqhi_to_color_mem, bandIndex_mono, ?_⟩
  · intro s hs
    show colorOfParsed (parsePyFloat s) = MISSING_COLOR
    rw [hs]
    rfl
  · intro v
    show AQHI_COLORS.getD (bandIndex v) MISSING_COLOR =
      AQHI_COLORS.getD (specBandIndex v) MISSING_COLOR
    rw [bandIndex_eq_spec]
  · intro v hv
    show AQHI_COLORS.getD (bandIndex v) MISSING_COLOR = "#640100"
    have hb : bandIndex v = 10 := by
      unfold bandIndex
      split_ifs <;> first | rfl | (exfalso; linarith)
    rw [hb]
    rfl
  · show AQHI_COLORS.getD (bandIndex (15 / 2)) MISSING_COLOR = "#fe0002"
    have hb : bandIndex ((15 : ℚ) / 2) = 7 := by
      unfold bandIndex
      rw [if_neg (by norm_num), if_neg (by norm_num), if_neg (by norm_num),
        if_neg (by norm_num), if_neg (by norm_num), if_neg (by norm_num),
        if_neg (by norm_num), if_pos (by norm_num)]
    rw [hb]
    rfl

/-- C2 witness: the hypotheses of the banding theorem discharged at the
concrete inputs `"hello"`, `11` and `3 <= 9`. -/
theorem C2_color_banding_witness :
    aqhi_to_color (.str ("hello")) = MISSING_COLOR ∧
    aqhi_to_color (.num (.val 11)) = "#640100" ∧
    bandIndex 3 ≤ bandIndex 9 :=
  ⟨C2_color_banding.2.2.1 ("hello") (by decide),
   C2_color_banding.2.2.2.2.1 11 (by norm_num),
   C2_color_banding.2.2.2.2.2.2.1 3 9 (by norm_num)⟩

/-- C5 counterexample: `aqhi_to_color` is not idempotent: at the numeric
input 5 the result is `"#ffcb00"`, and feeding that string back returns the
missing color `"#9e9e9e"`, not `"#ffcb00"`. -/
theorem C5_not_idempotent_cex :
    aqhi_to_color (.str (aqhi_to_color (.num (.val 5)))) ≠
      aqhi_to_color (.num (.val 5)) := by decide

/-- Conclusions of the sorted-group-tail step for the XML variant. -/
theorem xmlMergeFacts {rows m : List RecX}
    (hm : m = [] ∨ m = tailOne keyX (sortObs obsValX (dropNaXY rows))) :
    m.Pairwise (fun a b => keyX a ≠ keyX b) ∧
      ∀ a ∈ m, ∀ b ∈ rows, keyX b = keyX a → ∀ sa sb,
        a.observed = some (some sa) → b.observed = some (some sb) →
        strLe sb sa = true := by
  rcases hm with rfl | rfl
  · exact ⟨List.Pairwise.nil, by intro a ha; simp at ha⟩
  · refine ⟨tailOne_pairwise, ?_⟩
    intro a ha b hb hkey sa sb hsa hsb
    have hka := tailOne_key_isSome ha
    have hkb : (keyX b).isSome = true := by rw [hkey]; exact hka
    have hf := keyX_isSome_facts hkb
    have hbdf : b ∈ dropNaXY rows :=
      List.mem_filter.mpr ⟨hb, by unfold coordOkX; rw [hf.2.1, hf.2.2]; rfl⟩
    have hle := sorted_tail_max ha hbdf hkey
    unfold obsValX at hle
    rw [hsa, hsb] at hle
    exact hle

/-- Conclusions of the sorted-group-tail step for the API variants. -/
theorem apiMergeFacts {rows m : List RecA}
    (hm : m = [] ∨ m = tailOne keyA (sortObs obsValA (dropNaA rows))) :
    m.Pairwise (fun a b => keyA a ≠ keyA b) ∧
      ∀ a ∈ m, ∀ b ∈ rows, b.lat.isSome = true → b.lon.isSome = true →
        keyA b = keyA a → ∀ sa sb, a.observed = some (some sa) →
        b.observed = some (some sb) → strLe sb sa = true := by
  rcases hm with rfl | rfl
  · exact ⟨List.Pairwise.nil, by intro a ha; simp at ha⟩
  · refine ⟨tailOne_pairwise, ?_⟩
    intro a ha b hb hlat hlon hkey sa sb hsa hsb
    have hbdf : b ∈ dropNaA rows :=
      List.mem_filter.mpr ⟨hb, by unfold coordOkA; rw [hlat, hlon]; rfl⟩
    have hle := sorted_tail_max ha hbdf hkey
    unfold obsValA at hle
    rw [hsa, hsb] at hle
    exact hle

/-- C1: when every input record carries a timestamp string, the merge keeps
at most one record per identity key (name+coordinates in the XML variant,
station id in the API variants), and every survivor's timestamp is lexically
greatest among the same-key records that pass the coordinate filter. -/
theorem C1_merge_keeps_latest :
    ∀ (rx : List RecX) (ra : List RecA),
      (∀ r ∈ rx, ∃ s, r.observed = some (some s)) →
      (∀ r ∈ ra, ∃ s, r.observed = some (some s)) →
      ((mergeXml rx).Pairwise (fun a b => keyX a ≠ keyX b) ∧
        ∀ a ∈ mergeXml rx, ∀ b ∈ rx, keyX b = keyX a → ∀ sa sb,
          a.observed = some (some sa) → b.observed = some (some sb) →
          strLe sb sa = true) ∧
      ((mergeObsAll ra).Pairwise (fun a b => keyA a ≠ keyA b) ∧
        ∀ a ∈ mergeObsAll ra, ∀ b ∈ ra, b.lat.isSome = true →
          b.lon.isSome = true → keyA b = keyA a → ∀ sa sb,
          a.observed = some (some sa) → b.observed = some (some sb) →
          strLe sb sa = true) ∧
      ((mergeGeo ra).Pairwise (fun a b => keyA a ≠ keyA b) ∧
        ∀ a ∈ mergeGeo ra, ∀ b ∈ ra, b.lat.isSome = true →
          b.lon.isSome = true → keyA b = keyA a → ∀ sa sb,
          a.observed = some (some sa) → b.observed = some (some sb) →
          strLe sb sa = true) := by
  intro rx ra H1 H2
  have HX : ∀ r ∈ rx, (r.observed).isSome = true := by
    intro r hr
    obtain ⟨s, hs⟩ := H1 r hr
    rw [hs]
    rfl
  have HA : ∀ r ∈ ra, (r.observed).isSome = true := by
    intro r hr
    obtain ⟨s, hs⟩ := H2 r hr
    rw [hs]
    rfl
  exact ⟨xmlMergeFacts ((mergeXml_under HX).imp (fun h => h.1) id),
    apiMergeFacts (mergeObsAll_under HA), apiMergeFacts (mergeGeo_under HA)⟩

/-- C1 witness: in the two-record StationA scenario only the record with the
later timestamp survives, and the merged set has pairwise-distinct keys. -/
theorem C1_merge_keeps_latest_witness :
    mergeXml [wreca, wrecb] = [wrecb] ∧
    (mergeXml [wreca, wrecb]).Pairwise (fun a b => keyX a ≠ keyX b) :=
  ⟨by decide,
   (C1_merge_keeps_latest [wreca, wrecb] []
      (by
        intro r hr
        rcases List.mem_cons.mp hr with rfl | hr
        · exact ⟨("2024-01-01T00:00"), rfl⟩
        · rcases List.mem_cons.mp hr with rfl | hr
          · exact ⟨("2024-01-02T00:00"), rfl⟩
          · simp at hr)
      (by intro r hr; simp at hr)).1.1⟩

/-- C3: when the timestamp field is entirely absent across the records
(no row dict carries the key, so the pandas column does not exist), the merge
performs no reduction beyond dropping records with missing coordinates. -/
theorem C3_no_timestamp_no_reduction :
    ∀ (rx : List RecX) (ra : List RecA),
      (∀ r ∈ rx, r.observed = Option.none) →
      (∀ r ∈ ra, r.observed = Option.none) →
      mergeXml rx = dropNaXY rx ∧ mergeObsAll ra = dropNaA ra ∧
        mergeGeo ra = dropNaA ra := by
  intro rx ra h1 h2
  refine ⟨mergeXml_nocol (colPresentX_false h1), ?_, mergeGeo_nocol (colPresentA_false h2)⟩
  apply mergeObsAll_guard_false
  rw [colPresentA_false h2, Bool.and_false]

/-- C3 witness: two identical coordinate-complete records without the
timestamp field both remain after the merge. -/
theorem C3_no_timestamp_no_reduction_witness :
    mergeXml [wdup, wdup] = [wdup, wdup] :=
  ((C3_no_timestamp_no_reduction [wdup, wdup] []
      (by intro r hr; rcases List.mem_cons.mp hr with rfl | hr; · rfl
          rcases List.mem_cons.mp hr with rfl | hr; · rfl
          simp at hr)
      (by intro r hr; simp at hr)).1).trans (by decide)

/-- C10: a record whose identity key is missing never appears in any merge
output: the API pipelines only emit records with a present id, and the XML
merge (whose input rows always carry the observed key) only emits records
with a present name. -/
theorem C10_missing_identity_dropped :
    (∀ (feats : List JFeature) (rc : RecAC), rc ∈ obs_to_df feats →
      rc.id.isSome = true) ∧
    (∀ (feats : List JFeature) (rc : RecAC), rc ∈ to_dataframe feats →
      rc.id.isSome = true) ∧
    (∀ (rx : List RecX), (∀ r ∈ rx, (r.observed).isSome = true) →
      ∀ r ∈ mergeXml rx, r.name.isSome = true) := by
  have hrows : ∀ (feats : List JFeature), ∀ r ∈ feats.map rowOfObsFeature,
      (r.observed).isSome = true := by
    intro feats r hr
    obtain ⟨f, _, rfl⟩ := List.mem_map.mp hr
    rfl
  refine ⟨?_, ?_, ?_⟩
  · intro feats rc hrc
    obtain ⟨r, hr, rfl⟩ := List.mem_map.mp hrc
    show r.id.isSome = true
    rcases mergeObsAll_under (hrows feats) with he | ht
    · rw [he] at hr
      simp at hr
    · rw [ht] at hr
      exact tailOne_key_isSome hr
  · intro feats rc hrc
    obtain ⟨r, hr, rfl⟩ := List.mem_map.mp hrc
    show r.id.isSome = true
    rcases mergeGeo_under (hrows feats) with he | ht
    · rw [he] at hr
      simp at hr
    · rw [ht] at hr
      exact tailOne_key_isSome hr
  · intro rx H r hr
    rcases mergeXml_under H with ⟨he, _⟩ | ht
    · rw [he] at hr
      simp at hr
    · rw [ht] at hr
      exact (keyX_isSome_facts (tailOne_key_isSome hr)).1

/-- C10 witness: the id-less feature is removed entirely even though its
coordinates and AQHI value are present, and the surviving record of the
two-feature input has a present id. -/
theorem C10_missing_identity_dropped_witness :
    obs_to_df [wfeatNoId] = [] ∧ wrecIdC.id.isSome = true :=
  ⟨by decide,
   C10_missing_identity_dropped.1 [wfeatId, wfeatNoId] wrecIdC (by decide)⟩

/-- C5 amended: `aqhi_to_color` is a pure function, but re-applying it to its
own result always yields the missing color (every output string is
non-numeric), so `color (color x) = color x` holds exactly when `color x` is
already the missing color. -/
theorem C5_reapply_yields_missing :
    ∀ x : PyObj, aqhi_to_color (.str (aqhi_to_color x)) = MISSING_COLOR ∧
      (aqhi_to_color (.str (aqhi_to_color x)) = aqhi_to_color x ↔
        aqhi_to_color x = MISSING_COLOR) := by
  intro x
  have hmain : aqhi_to_color (.str (aqhi_to_color x)) = MISSING_COLOR := by
    have hp := color_output_not_numeric x
    show colorOfParsed (parsePyFloat (aqhi_to_color x)) = MISSING_COLOR
    rw [hp]
    rfl
  refine ⟨hmain, ⟨fun h => ?_, fun h => ?_⟩⟩
  · rw [hmain] at h
    exact h.symm
  · rw [hmain, h]

theorem bool_and_split {a b : Bool} (h : (a && b) = true) : a = true ∧ b = true := by
  simp only [Bool.and_eq_true] at h
  exact h

theorem emitIfCoords_mem {r r0 : RecX} (h : r ∈ emitIfCoords r0) :
    r.lat.isSome = true ∧ r.lon.isSome = true := by
  unfold emitIfCoords at h
  split_ifs at h with hc
  · rcases List.mem_singleton.mp h with rfl
    exact bool_and_split hc
  · simp at h

/-- C4: a record missing a coordinate never reaches coloring or output:
the XML extractor emits a record only when both coordinates parsed as
numbers, and each merge drops all rows whose latitude or longitude is
missing, so every merged (hence colored and written) record has both. -/
theorem C4_coords_required :
    (∀ (root : XNode) (r : RecX), r ∈ extractRecords root →
      r.lat.isSome = true ∧ r.lon.isSome = true) ∧
    (∀ (rx : List RecX) (r : RecX), r ∈ mergeXml rx →
      isnaF r.lat = false ∧ isnaF r.lon = false) ∧
    (∀ (ra : List RecA) (q : RecA), q ∈ mergeObsAll ra →
      q.lat.isSome = true ∧ q.lon.isSome = true) ∧
    (∀ (ra : List RecA) (q : RecA), q ∈ mergeGeo ra →
      q.lat.isSome = true ∧ q.lon.isSome = true) := by
  have hA : ∀ (ra : List RecA) (q : RecA), q ∈ dropNaA ra →
      q.lat.isSome = true ∧ q.lon.isSome = true := by
    intro ra q hq
    have := (List.mem_filter.mp hq).2
    exact bool_and_split this
  refine ⟨?_, ?_, fun ra q hq => hA ra q (mergeObsAll_sub_df hq),
    fun ra q hq => hA ra q (mergeGeo_sub_df hq)⟩
  · intro root r hr
    obtain ⟨n, _, hn⟩ := List.mem_flatMap.mp hr
    unfold recordOfNode at hn
    split_ifs at hn with hm
    · exact emitIfCoords_mem hn
    · simp at hn
  · intro rx r hr
    have := (List.mem_filter.mp (mergeXml_sub_df hr)).2
    have h2 := bool_and_split this
    rw [Bool.not_eq_true'] at h2
    rw [Bool.not_eq_true'] at h2
    exact h2

/-- C4 witness: the sample tree yields exactly one record, and that record
has both coordinates present; a merge of the scenario records likewise
yields records with both coordinates. -/
theorem C4_coords_required_witness :
    extractRecords wtree = [wxrec] ∧
    (wxrec.lat.isSome = true ∧ wxrec.lon.isSome = true) ∧
    (isnaF wrecb.lat = false ∧ isnaF wrecb.lon = false) :=
  ⟨by decide,
   C4_coords_required.1 wtree wxrec (by decide),
   C4_coords_required.2.1 [wreca, wrecb] wrecb (by decide)⟩

/-- C6: the bounding-box filter retains exactly the records whose longitude
lies in `[west, east]` and latitude in `[south, north]`, inclusive. -/
theorem C6_bbox_inclusive :
    (∀ (W S E N : ℚ) (df : List RecXC) (r : RecXC) (x y : ℚ),
      r.lon = some (.val x) → r.lat = some (.val y) →
      (r ∈ bboxFilterX W S E N df ↔
        r ∈ df ∧ W ≤ x ∧ x ≤ E ∧ S ≤ y ∧ y ≤ N)) ∧
    (∀ (W S E N : ℚ) (df : List RecAC) (q : RecAC) (x y : ℚ),
      q.lon = some x → q.lat = some y →
      (q ∈ bboxFilterA W S E N df ↔
        q ∈ df ∧ W ≤ x ∧ x ≤ E ∧ S ≤ y ∧ y ≤ N)) := by
  constructor
  · intro W S E N df r x y hlon hlat
    unfold bboxFilterX
    rw [List.mem_filter]
    simp [cellGe, cellLe, pfLe, hlon, hlat, Bool.and_eq_true, decide_eq_true_eq,
      and_assoc]
  · intro W S E N df q x y hlon hlat
    unfold bboxFilterA
    rw [List.mem_filter]
    simp [cellGeQ, cellLeQ, hlon, hlat, Bool.and_eq_true, decide_eq_true_eq,
      and_assoc]

/-- C6 witness: with bbox `(-121, 48, -108, 61)` the record at `(-115, 55)`
is included and the record at `(-130, 50)` is excluded. -/
theorem C6_bbox_inclusive_witness :
    wrecIn ∈ bboxFilterX (-121) 48 (-108) 61 [wrecOut, wrecIn] ∧
    wrecOut ∉ bboxFilterX (-121) 48 (-108) 61 [wrecOut, wrecIn] :=
  ⟨(C6_bbox_inclusive.1 (-121) 48 (-108) 61 [wrecOut, wrecIn] wrecIn
      (-115) 55 rfl rfl).mpr ⟨by decide, by decide, by decide, by decide, by decide⟩,
   by decide⟩

theorem sortStrings_pairwise (l : List String) :
    (sortStrings l).Pairwise (fun a b => strLe a b = true) := by
  haveI : IsTotal String (fun a b => strLe a b = true) :=
    ⟨fun a b => lexLe_total a.data b.data⟩
  haveI : IsTrans String (fun a b => strLe a b = true) :=
    ⟨fun a b c hab hbc => lexLe_trans hab hbc⟩
  exact List.sorted_insertionSort _ l

theorem sortStrings_perm (l : List String) : List.Perm (sortStrings l) l :=
  List.perm_insertionSort _ l

theorem urlKeep_iff (regions : Option (List String)) (u : String) :
    urlKeep (rsetOf regions) u = true ↔
      (strContains (lowerStr u) ("observation") = true ∧
       strContains (lowerStr u) ("realtime") = true ∧
       strEndsWith (lowerStr u) (".xml") = true ∧
       (∀ rs, regions = some rs → rs ≠ [] →
         ∃ r0 ∈ rs, strContains (lowerStr u) ("/" ++ lowerStr r0 ++ "/") = true)) := by
  unfold urlKeep rsetOf
  match regions with
  | Option.none => simp [Bool.and_eq_true, and_assoc]
  | some [] => simp [Bool.and_eq_true, and_assoc]
  | some (r0 :: rest) =>
    simp only [Bool.and_eq_true, List.any_eq_true, List.mem_map, and_assoc]
    constructor
    · rintro ⟨h1, h2, h3, h4⟩
      refine ⟨h1, h2, h3, ?_⟩
      intro rs hrs _
      cases Option.some.inj hrs
      obtain ⟨lr, ⟨r1, hr1, rfl⟩, hc⟩ := h4
      exact ⟨r1, hr1, hc⟩
    · rintro ⟨h1, h2, h3, h4⟩
      obtain ⟨r1, hr1, hc⟩ := h4 (r0 :: rest) rfl (by simp)
      exact ⟨h1, h2, h3, ⟨lowerStr r1, ⟨r1, hr1, rfl⟩, hc⟩⟩

theorem filter_realtime_pos {urls : List String} {regions : Option (List String)}
    {N : Int} (hN : 0 < N) :
    filter_realtime_observation_urls urls regions N =
      (sortStrings (urls.filter (urlKeep (rsetOf regions)))).drop
        ((sortStrings (urls.filter (urlKeep (rsetOf regions)))).length - N.toNat) := by
  unfold filter_realtime_observation_urls
  rw [if_neg (by simp; omega)]
  unfold pySliceFrom
  rw [if_pos (by omega), neg_neg]

/-- C7 counterexample: a URL containing both the "observation" and
"realtime" tokens but not ending in ".xml" is dropped by the filter, so the
filter does not keep exactly the URLs containing the two tokens. -/
theorem C7_url_filter_cex :
    strContains (lowerStr wurlTxt) ("observation") = true ∧
    strContains (lowerStr wurlTxt) ("realtime") = true ∧
    filter_realtime_observation_urls [wurlTxt] Option.none 300 = [] := by
  refine ⟨by decide, by decide, by decide⟩

/-- C7 amended: the filter keeps exactly the URLs that contain both tokens
(case-insensitive) and end in ".xml" and, when regions are given, contain a
`/<region>/` segment for a requested region; the kept list is sorted
lexically and truncated to its last N entries when a positive limit is set. -/
theorem C7_url_filter_spec :
    ∀ (urls : List String) (regions : Option (List String)) (N : Int) (u : String),
      (u ∈ filter_realtime_observation_urls urls regions 0 ↔
        u ∈ urls ∧ strContains (lowerStr u) ("observation") = true ∧
          strContains (lowerStr u) ("realtime") = true ∧
          strEndsWith (lowerStr u) (".xml") = true ∧
          (∀ rs, regions = some rs → rs ≠ [] →
            ∃ r0 ∈ rs, strContains (lowerStr u) ("/" ++ lowerStr r0 ++ "/") = true)) ∧
      (filter_realtime_observation_urls urls regions N).Pairwise
        (fun a b => strLe a b = true) ∧
      (0 < N → filter_realtime_observation_urls urls regions N =
        (filter_realtime_observation_urls urls regions 0).drop
          ((filter_realtime_observation_urls urls regions 0).length - N.toNat)) := by
  intro urls regions N u
  refine ⟨?_, ?_, ?_⟩
  · show u ∈ sortStrings (urls.filter (urlKeep (rsetOf regions))) ↔ _
    rw [(sortStrings_perm _).mem_iff, List.mem_filter]
    exact and_congr_right (fun _ => urlKeep_iff regions u)
  · by_cases h0 : N = 0
    · subst h0
      exact sortStrings_pairwise _
    · unfold filter_realtime_observation_urls
      rw [if_neg (by simpa using h0)]
      unfold pySliceFrom
      split_ifs with hneg
      · exact List.Pairwise.sublist (List.drop_sublist _ _) (sortStrings_pairwise _)
      · exact List.Pairwise.sublist (List.drop_sublist _ _) (sortStrings_pairwise _)
  · intro hN
    rw [filter_realtime_pos hN]
    rfl

/-- C7 witness: in the two-URL scenario with `regions = ["atl"]` only the
atl URL is kept, and the truncation law holds at the default limit 300. -/
theorem C7_url_filter_spec_witness :
    wurlAtl ∈ filter_realtime_observation_urls [wurlAtl, wurlOnt] (some [("atl")]) 0 ∧
    filter_realtime_observation_urls [wurlAtl, wurlOnt] (some [("atl")]) 300 =
      (filter_realtime_observation_urls [wurlAtl, wurlOnt] (some [("atl")]) 0).drop
        ((filter_realtime_observation_urls [wurlAtl, wurlOnt] (some [("atl")]) 0).length
          - (300 : Int).toNat) ∧
    filter_realtime_observation_urls [wurlAtl, wurlOnt] (some [("atl")]) 300 = [wurlAtl] :=
  ⟨(C7_url_filter_spec [wurlAtl, wurlOnt] (some [("atl")]) 300 wurlAtl).1.mpr
      ⟨by decide, by decide, by decide, by decide,
       by
        intro rs hrs _
        cases Option.some.inj hrs
        exact ⟨("atl"), by decide, by decide⟩⟩,
   (C7_url_filter_spec [wurlAtl, wurlOnt] (some [("atl")]) 300 wurlAtl).2.2 (by decide),
   by decide⟩

theorem cellFloat_optF (o : Option PyFloat) : cellFloat (some (cellOfOptF o)) = o := by
  cases o <;> rfl

theorem cellFloat_optQ (o : Option ℚ) :
    cellFloat (some (cellOfOptQ o)) = o.map PyFloat.val := by
  cases o <;> rfl

theorem jval_optStr (o : Option String) : jvalOfCell (cellOfOptStr o) = jStrOpt o := by
  cases o <;> rfl

theorem jval_optF (o : Option PyFloat) : jvalOfCell (cellOfOptF o) = jFOpt o := by
  cases o with
  | none => rfl
  | some f => cases f <;> rfl

theorem jval_optQ (o : Option ℚ) : jvalOfCell (cellOfOptQ o) = jQOpt o := by
  cases o <;> rfl

theorem featureOfRow_rowX (r : RecXC) :
    featureOfRow (rowX r) =
      { coordinates := (r.lon, r.lat),
        properties := [(("name"), jStrOpt r.name), (("aqhi"), jFOpt r.aqhi),
          (("observed"), jStrOpt (obsValX r.toRecX)), (("color"), JVal.js r.color)] } := by
  have h : featureOfRow (rowX r) =
      { coordinates := (cellFloat (some (cellOfOptF r.lon)),
          cellFloat (some (cellOfOptF r.lat))),
        properties := [(("name"), jvalOfCell (cellOfOptStr r.name)),
          (("aqhi"), jvalOfCell (cellOfOptF r.aqhi)),
          (("observed"), jvalOfCell (cellOfOptStr (obsValX r.toRecX))),
          (("color"), jvalOfCell (Cell.cs r.color))] } := rfl
  rw [h, cellFloat_optF, cellFloat_optF, jval_optStr, jval_optF, jval_optStr]
  rfl

theorem featureOfRow_rowA (r : RecAC) :
    featureOfRow (rowA r) =
      { coordinates := (r.lon.map PyFloat.val, r.lat.map PyFloat.val),
        properties := [(("id"), jStrOpt r.id), (("name"), jStrOpt r.name),
          (("province"), jStrOpt r.province), (("aqhi"), jQOpt r.aqhi),
          (("observed"), jStrOpt (obsValA r.toRecA)), (("color"), JVal.js r.color)] } := by
  have h : featureOfRow (rowA r) =
      { coordinates := (cellFloat (some (cellOfOptQ r.lon)),
          cellFloat (some (cellOfOptQ r.lat))),
        properties := [(("id"), jvalOfCell (cellOfOptStr r.id)),
          (("name"), jvalOfCell (cellOfOptStr r.name)),
          (("province"), jvalOfCell (cellOfOptStr r.province)),
          (("aqhi"), jvalOfCell (cellOfOptQ r.aqhi)),
          (("observed"), jvalOfCell (cellOfOptStr (obsValA r.toRecA))),
          (("color"), jvalOfCell (Cell.cs r.color))] } := rfl
  rw [h, cellFloat_optQ, cellFloat_optQ, jval_optStr, jval_optStr, jval_optStr,
    jval_optQ, jval_optStr]
  rfl

/-- C8: the GeoJSON writer preserves coordinates and properties: the feature
built for each dataframe row has Point coordinates equal to the row's
`(lon, lat)` pair exactly, and its properties are exactly the non-coordinate
columns in order, with missing values serialized as null. -/
theorem C8_geojson_roundtrip :
    ∀ (dfx : List RecXC) (dfa : List RecAC),
      build_geojson (dfx.map rowX) = dfx.map (fun r =>
        { coordinates := (r.lon, r.lat),
          properties := [(("name"), jStrOpt r.name), (("aqhi"), jFOpt r.aqhi),
            (("observed"), jStrOpt (obsValX r.toRecX)),
            (("color"), JVal.js r.color)] }) ∧
      build_geojson (dfa.map rowA) = dfa.map (fun r =>
        { coordinates := (r.lon.map PyFloat.val, r.lat.map PyFloat.val),
          properties := [(("id"), jStrOpt r.id), (("name"), jStrOpt r.name),
            (("province"), jStrOpt r.province), (("aqhi"), jQOpt r.aqhi),
            (("observed"), jStrOpt (obsValA r.toRecA)),
            (("color"), JVal.js r.color)] }) := by
  intro dfx dfa
  constructor
  · induction dfx with
    | nil => rfl
    | cons r rest ih =>
      simp only [build_geojson, List.map_cons] at ih ⊢
      rw [featureOfRow_rowX, ih]
  · induction dfa with
    | nil => rfl
    | cons r rest ih =>
      simp only [build_geojson, List.map_cons] at ih ⊢
      rw [featureOfRow_rowA, ih]

/-- C9: a source document that fails to parse as XML yields zero records
(the extractor returns the empty list instead of raising), and the
per-document fetch/parse loop drops a failing document - malformed body or
failed fetch - while still processing all the other documents. -/
theorem C9_malformed_doc_skipped :
    parse_aqhi_xml XDoc.malformed = [] ∧
    (∀ (pre post : List (String × Fetched)) (u : String),
      runFetchLoop (pre ++ (u, Fetched.ok XDoc.malformed) :: post) =
        runFetchLoop pre ++ runFetchLoop post) ∧
    (∀ (pre post : List (String × Fetched)) (u : String),
      runFetchLoop (pre ++ (u, Fetched.fetchError) :: post) =
        runFetchLoop pre ++ runFetchLoop post) := by
  refine ⟨rfl, ?_, ?_⟩
  · intro pre post u
    induction pre with
    | nil => rfl
    | cons hd tl ih =>
      rcases hd with ⟨v, fr⟩
      cases fr with
      | fetchError => simpa [runFetchLoop] using ih
      | ok d => simp [runFetchLoop, ih, List.append_assoc]
  · intro pre post u
    induction pre with
    | nil => rfl
    | cons hd tl ih =>
      rcases hd with ⟨v, fr⟩
      cases fr with
      | fetchError => simpa [runFetchLoop] using ih
      | ok d => simp [runFetchLoop, ih, List.append_assoc]

end CanAqhi
